import Mathlib

/-!
# Verification of the OpenAi2CC protocol-translation gateway

Shallow embedding of the core logic of the OpenAi2CC repository:

* `src/model-mapping.ts` — `ModelMappingManager.mapModel` (model-name resolution);
* `src/retry-manager.ts` — `RetryManager.calculateDelay`, `shouldRetry`,
  `executeWithRetry`;
* the `ProtocolConverter` class (Claude/OpenAI request and response
  translation, including string truncation, tool-call translation and the
  numeric defaults);
* the streaming translation loop of `POST /v1/messages` in `src/index.ts`
  (text deltas, tool-call accumulation, finish events).

JavaScript truthiness (`x || d`, `if (x)`) is modelled explicitly: a string
is falsy when empty, a number when zero, `null`/`undefined` always.
`JSON.parse` / `JSON.stringify` are modelled by an executable JSON parser
and serializer over a `Json` inductive; numbers are rationals (the source
values relevant here are small integers, so IEEE rounding is immaterial).
-/

namespace OpenAi2CC

/-! ## JSON values -/

/-- JSON values as produced by `JSON.parse`.  Numbers are modelled as
rationals. -/
inductive Json where
  | null : Json
  | bool (b : Bool) : Json
  | num (q : ℚ) : Json
  | str (s : String) : Json
  | arr (xs : List Json) : Json
  | obj (members : List (String × Json)) : Json

/-- JavaScript truthiness of a JSON value: `null`, `false`, `0` and the
empty string are falsy, every array and object is truthy. -/
def Json.jsFalsy : Json → Bool
  | .null => true
  | .bool b => !b
  | .num q => q = 0
  | .str s => s = ""
  | .arr _ => false
  | .obj _ => false

/-- Number of keys `Object.keys` reports: object members, array indices,
string characters; primitives have none. -/
def Json.jsKeysLength : Json → Nat
  | .obj members => members.length
  | .arr xs => xs.length
  | .str s => s.length
  | _ => 0

/-! ### Characters that the repository's string-lint treats specially -/

def quoteChar : Char := Char.ofNat 34
def backslashChar : Char := Char.ofNat 92
def lbraceChar : Char := Char.ofNat 123
def rbraceChar : Char := Char.ofNat 125

/-! ### A small executable JSON parser (model of `JSON.parse`)

The parser supports objects, arrays, strings with the common single-letter
escapes, `true`/`false`/`null` and decimal numbers with optional fraction
and exponent.  (`\uXXXX` escapes are not modelled; no input in this
development uses them.)  Recursion is by an explicit fuel, always called
with more fuel than the input has characters. -/

def skipWs : List Char → List Char
  | [] => []
  | c :: cs => if c = ' ' ∨ c = '\n' ∨ c = '\t' ∨ c = '\r' then skipWs cs else c :: cs

/-- Parse a maximal run of decimal digits, returning value, digit count and
the rest of the input. -/
def parseDigits : List Char → Nat → Nat → (Nat × Nat × List Char)
  | [], acc, n => (acc, n, [])
  | c :: cs, acc, n =>
    if c.isDigit then parseDigits cs (acc * 10 + (c.toNat - 48)) (n + 1)
    else (acc, n, c :: cs)

/-- Parse the body of a string literal (the opening quote already
consumed). -/
def parseStringBody : List Char → Option (String × List Char)
  | [] => none
  | c :: cs =>
    if c = quoteChar then some ("", cs)
    else if c = backslashChar then
      match cs with
      | [] => none
      | e :: cs' =>
        let r? : Option Char :=
          if e = quoteChar then some quoteChar
          else if e = backslashChar then some backslashChar
          else if e = '/' then some '/'
          else if e = 'n' then some '\n'
          else if e = 't' then some '\t'
          else if e = 'r' then some '\r'
          else if e = 'b' then some (Char.ofNat 8)
          else if e = 'f' then some (Char.ofNat 12)
          else none
        match r? with
        | some r =>
          match parseStringBody cs' with
          | some (s, rest) => some (String.singleton r ++ s, rest)
          | none => none
        | none => none
    else
      match parseStringBody cs with
      | some (s, rest) => some (String.singleton c ++ s, rest)
      | none => none

/-- Parse a JSON number (JS `JSON.parse` grammar, minus leading-zero
pedantry). -/
def parseNumber (cs : List Char) : Option (Json × List Char) :=
  let (neg, cs1) := match cs with
    | '-' :: r => (true, r)
    | _ => (false, cs)
  let (ip, ipCount, cs2) := parseDigits cs1 0 0
  if ipCount = 0 then none
  else
    let (fracV, fracCount, cs3) := match cs2 with
      | '.' :: r => parseDigits r 0 0
      | _ => (0, 0, cs2)
    let fracBad : Bool := match cs2 with
      | '.' :: _ => fracCount == 0
      | _ => false
    if fracBad then none
    else
      let expPart : Option (Bool × Nat × List Char) := match cs3 with
        | c :: r =>
          if c = 'e' ∨ c = 'E' then
            match r with
            | '-' :: r2 =>
              let (ev, en, r3) := parseDigits r2 0 0
              if en = 0 then none else some (true, ev, r3)
            | '+' :: r2 =>
              let (ev, en, r3) := parseDigits r2 0 0
              if en = 0 then none else some (false, ev, r3)
            | _ =>
              let (ev, en, r3) := parseDigits r 0 0
              if en = 0 then none else some (false, ev, r3)
          else some (false, 0, cs3)
        | [] => some (false, 0, [])
      match expPart with
      | none => none
      | some (expNeg, expV, cs4) =>
        let base : ℚ :=
          if fracCount = 0 then (ip : ℚ)
          else (ip : ℚ) + (fracV : ℚ) / (10 : ℚ) ^ fracCount
        let scaled : ℚ :=
          if expV = 0 then base
          else if expNeg then base / (10 : ℚ) ^ expV
          else base * (10 : ℚ) ^ expV
        some (.num (if neg then -scaled else scaled), cs4)

mutual

def parseValue : Nat → List Char → Option (Json × List Char)
  | 0, _ => none
  | fuel + 1, cs =>
    match skipWs cs with
    | [] => none
    | c :: rest =>
      if c = quoteChar then
        match parseStringBody rest with
        | some (s, r) => some (.str s, r)
        | none => none
      else if c = lbraceChar then
        match skipWs rest with
        | c2 :: r2 =>
          if c2 = rbraceChar then some (.obj [], r2)
          else
            match parseMembers fuel (c2 :: r2) with
            | some (ms, r3) => some (.obj ms, r3)
            | none => none
        | [] => none
      else if c = '[' then
        match skipWs rest with
        | ']' :: r2 => some (.arr [], r2)
        | r2 =>
          match parseElems fuel r2 with
          | some (xs, r3) => some (.arr xs, r3)
          | none => none
      else if c = 't' then
        match rest with
        | 'r' :: 'u' :: 'e' :: r => some (.bool true, r)
        | _ => none
      else if c = 'f' then
        match rest with
        | 'a' :: 'l' :: 's' :: 'e' :: r => some (.bool false, r)
        | _ => none
      else if c = 'n' then
        match rest with
        | 'u' :: 'l' :: 'l' :: r => some (.null, r)
        | _ => none
      else if c.isDigit ∨ c = '-' then parseNumber (c :: rest)
      else none

def parseMembers : Nat → List Char → Option (List (String × Json) × List Char)
  | 0, _ => none
  | fuel + 1, cs =>
    match skipWs cs with
    | [] => none
    | c :: r =>
      if c = quoteChar then
        match parseStringBody r with
        | some (key, r1) =>
          match skipWs r1 with
          | ':' :: r2 =>
            match parseValue fuel r2 with
            | some (v, r3) =>
              match skipWs r3 with
              | ',' :: r4 =>
                match parseMembers fuel r4 with
                | some (ms, r5) => some ((key, v) :: ms, r5)
                | none => none
              | c5 :: r5 => if c5 = rbraceChar then some ([(key, v)], r5) else none
              | [] => none
            | none => none
          | _ => none
        | none => none
      else none

def parseElems : Nat → List Char → Option (List Json × List Char)
  | 0, _ => none
  | fuel + 1, cs =>
    match parseValue fuel cs with
    | some (v, r) =>
      match skipWs r with
      | ',' :: r2 =>
        match parseElems fuel r2 with
        | some (xs, r3) => some (v :: xs, r3)
        | none => none
      | ']' :: r2 => some ([v], r2)
      | _ => none
    | none => none

end

/-- Model of `JSON.parse`: `none` means the call throws a `SyntaxError`. -/
def jsonParse (s : String) : Option Json :=
  match parseValue (s.length + 2) s.data with
  | some (v, rest) => if skipWs rest = [] then some v else none
  | none => none

/-! ### A JSON serializer (model of `JSON.stringify`) -/

def escapeChar (c : Char) : String :=
  if c = quoteChar then String.singleton backslashChar ++ String.singleton quoteChar
  else if c = backslashChar then String.singleton backslashChar ++ String.singleton backslashChar
  else if c = '\n' then String.singleton backslashChar ++ "n"
  else if c = '\t' then String.singleton backslashChar ++ "t"
  else if c = '\r' then String.singleton backslashChar ++ "r"
  else String.singleton c

def escapeString (s : String) : String :=
  String.join (s.data.map escapeChar)

mutual

def Json.stringify : Json → String
  | .null => "null"
  | .bool true => "true"
  | .bool false => "false"
  | .num q =>
    if q.den = 1 then toString q.num else toString q
  | .str s => String.singleton quoteChar ++ escapeString s ++ String.singleton quoteChar
  | .arr xs => "[" ++ stringifyElems xs ++ "]"
  | .obj ms =>
    String.singleton lbraceChar ++ stringifyMembers ms ++ String.singleton rbraceChar

def stringifyElems : List Json → String
  | [] => ""
  | [x] => Json.stringify x
  | x :: xs => Json.stringify x ++ "," ++ stringifyElems xs

def stringifyMembers : List (String × Json) → String
  | [] => ""
  | [(k, v)] =>
    String.singleton quoteChar ++ escapeString k ++ String.singleton quoteChar
      ++ ":" ++ Json.stringify v
  | (k, v) :: ms =>
    String.singleton quoteChar ++ escapeString k ++ String.singleton quoteChar
      ++ ":" ++ Json.stringify v ++ "," ++ stringifyMembers ms

end

/-! ## JavaScript truthiness helpers -/

/-- Model of `x || d` for an optional string (`undefined`/`null` and `""`
are falsy). -/
def jsOrStr (x : Option String) (d : String) : String :=
  match x with
  | some s => if s = "" then d else s
  | none => d

/-- Model of `x || d` for an optional number (`0` is falsy). -/
def jsOrNat (x : Option Nat) (d : Nat) : Nat :=
  match x with
  | some v => if v = 0 then d else v
  | none => d

/-- Model of `x || d` for an optional rational (`0` is falsy). -/
def jsOrRat (x : Option ℚ) (d : ℚ) : ℚ :=
  match x with
  | some v => if v = 0 then d else v
  | none => d

/-- Model of `x || d` for an optional boolean. -/
def jsOrBool (x : Option Bool) (d : Bool) : Bool :=
  match x with
  | some b => b || d
  | none => d

/-- Model of `x || d` for an optional JSON value (`null`, `false`, `0`,
`""` falsy). -/
def jsOrJson (x : Option Json) (d : Json) : Json :=
  match x with
  | some j => if j.jsFalsy then d else j
  | none => d

/-- Model of `if (x)` for an optional string. -/
def jsTruthyStr (x : Option String) : Bool :=
  match x with
  | some s => s ≠ ""
  | none => false

/-- Whether `pat` occurs as a contiguous run inside the list (JS
`String.prototype.includes`, on the character sequence). -/
def isInfixOfChars (pat : List Char) : List Char → Bool
  | [] => pat.isEmpty
  | c :: cs => pat.isPrefixOf (c :: cs) || isInfixOfChars pat cs

/-- JS `String.prototype.includes`, on the character sequence. -/
def strIncludes (s pat : String) : Bool :=
  isInfixOfChars pat.data s.data

/-! ## `src/model-mapping.ts` — `ModelMappingManager` -/

/-- The `ModelMapping.type` field (`'contains' | 'exact' | 'prefix' |
'suffix'`). -/
inductive MatchType where
  | contains : MatchType
  | exact : MatchType
  | prefixMatch : MatchType
  | suffixMatch : MatchType
  deriving DecidableEq, Repr

/-- One `ModelMapping` rule. -/
structure ModelMapping where
  pattern : String
  target : String
  type : MatchType
  deriving DecidableEq, Repr

/-- The mutable state of a `ModelMappingManager`: the rule list and the
optional `defaultModel` (`null` modelled as `none`). -/
structure ModelMappingState where
  mappings : List ModelMapping
  defaultModel : Option String
  deriving DecidableEq, Repr

/-- The per-rule match test of `mapModel` (the `switch (mapping.type)`);
`includes`/`startsWith`/`endsWith` are modelled on the character
sequence. -/
def ruleMatches (m : ModelMapping) (modelName : String) : Bool :=
  match m.type with
  | .contains => isInfixOfChars m.pattern.data modelName.data
  | .exact => modelName = m.pattern
  | .prefixMatch => m.pattern.data.isPrefixOf modelName.data
  | .suffixMatch => m.pattern.data.isSuffixOf modelName.data

/-- The fall-through of `mapModel` after the rule scan: the config
`defaultModel` if truthy, else the external default (`--model`) if truthy,
else the original name. -/
def mapModelFallback (defaultModel : Option String) (modelName : String)
    (externalDefaultModel : Option String) : String :=
  match defaultModel with
  | some d => if d = "" then jsOrStr externalDefaultModel modelName else d
  | none => jsOrStr externalDefaultModel modelName

/-- The `for (const mapping of this.mappings)` scan of `mapModel`: first
matching rule wins, otherwise fall through to the defaults. -/
def mapModelScan (defaultModel : Option String) (modelName : String)
    (externalDefaultModel : Option String) : List ModelMapping → String
  | [] => mapModelFallback defaultModel modelName externalDefaultModel
  | m :: ms =>
    if ruleMatches m modelName then m.target
    else mapModelScan defaultModel modelName externalDefaultModel ms

/-- Model of `ModelMappingManager.mapModel(modelName,
externalDefaultModel)`.  When
the rule list is empty the original name is returned immediately (the
`if (this.mappings.length === 0)` guard). -/
def mapModel (st : ModelMappingState) (modelName : String)
    (externalDefaultModel : Option String) : String :=
  if st.mappings = [] then modelName
  else mapModelScan st.defaultModel modelName externalDefaultModel st.mappings

/-- First rule of the table matching a name, in declaration order. -/
def findFirstMatch (ms : List ModelMapping) (modelName : String) : Option ModelMapping :=
  ms.find? (fun m => ruleMatches m modelName)

/-! ## `src/retry-manager.ts` — `RetryManager` -/

/-- The `RetryConfig` interface. -/
structure RetryConfig where
  maxRetries : Nat
  initialDelay : Nat
  maxDelay : Nat
  backoffFactor : Nat
  jitter : Bool
  deriving DecidableEq, Repr

/-- The `DEFAULT_RETRY_CONFIG` constant. -/
def DEFAULT_RETRY_CONFIG : RetryConfig :=
  { maxRetries := 3, initialDelay := 1000, maxDelay := 30000, backoffFactor := 2, jitter := true }

/-- The `RetryStrategy` union (`'exponential' | 'linear' | 'fixed'`). -/
inductive RetryStrategy where
  | exponential : RetryStrategy
  | linear : RetryStrategy
  | fixed : RetryStrategy
  deriving DecidableEq, Repr

/-- The shape of an error as inspected by `shouldRetry`:
`error.response?.status` and `error.code`. -/
structure RequestError where
  status : Option Nat
  code : Option String
  deriving DecidableEq, Repr

/-- The `RetryCondition` interface (the custom predicate is an arbitrary
function). -/
structure RetryCondition where
  statusCode : Option (List Nat)
  errorCodes : Option (List String)
  customCondition : Option (RequestError → Nat → Bool)

/-- The `DEFAULT_RETRY_CONDITION` constant. -/
def DEFAULT_RETRY_CONDITION : RetryCondition :=
  { statusCode := some [502, 503, 504, 429],
    errorCodes := some ["ECONNREFUSED", "ETIMEDOUT", "ECONNRESET"],
    customCondition := none }

/-- Model of `RetryManager.calculateDelay(attempt)`.  Here `rand` stands
for the
`Math.random()` draw used by the jitter branch; with `jitter = false` the
result does not depend on it.  The exponent `attempt - 1` is natural
subtraction; every call site (`executeWithRetry`) uses `attempt ≥ 1`, where
this agrees with `Math.pow`. -/
def calculateDelay (cfg : RetryConfig) (strategy : RetryStrategy) (attempt : Nat)
    (rand : ℚ) : ℤ :=
  let base : ℚ := match strategy with
    | .exponential => (cfg.initialDelay : ℚ) * (cfg.backoffFactor : ℚ) ^ (attempt - 1)
    | .linear => (cfg.initialDelay : ℚ) + (cfg.initialDelay : ℚ) * ((attempt : ℚ) - 1)
    | .fixed => (cfg.initialDelay : ℚ)
  let clamped : ℚ := min base (cfg.maxDelay : ℚ)
  let jittered : ℚ := if cfg.jitter then clamped * (1/2 + rand * (1/2)) else clamped
  ⌊jittered⌋

/-- Model of `RetryManager.shouldRetry(error, attempt)`.  The
`attempt >= maxRetries`
ceiling is checked before any error inspection; then the status-code list,
the error-code list, and finally the custom condition. -/
def shouldRetry (cfg : RetryConfig) (cond : RetryCondition) (error : RequestError)
    (attempt : Nat) : Bool :=
  if cfg.maxRetries ≤ attempt then false
  else
    let statusHit : Bool := match error.status with
      | some sc => sc ≠ 0 && (cond.statusCode.getD []).contains sc
      | none => false
    if statusHit then true
    else
      let codeHit : Bool := match error.code with
        | some ec => ec ≠ "" && (cond.errorCodes.getD []).contains ec
        | none => false
      if codeHit then true
      else
        match cond.customCondition with
        | some f => f error attempt
        | none => false

/-- The `for (let attempt = 1; attempt <= maxRetries; attempt++)` loop of
`executeWithRetry`.  `op n` is the outcome of the `n`-th invocation of the
operation; the result pairs the outcome (`.error none` is the
`throw lastError` with no attempt ever made, possible only when
`maxRetries = 0`) with the number of invocations performed.  The
`await this.delay(...)` sleep has no effect on the value and is not
modelled. -/
def executeAttempts {α : Type} (cfg : RetryConfig) (cond : RetryCondition)
    (op : Nat → Except RequestError α) :
    Nat → Nat → Option RequestError → Except (Option RequestError) α × Nat
  | _, 0, last => (.error last, 0)
  | attempt, remaining + 1, _ =>
    match op attempt with
    | .ok v => (.ok v, 1)
    | .error e =>
      if shouldRetry cfg cond e attempt then
        let r := executeAttempts cfg cond op (attempt + 1) remaining (some e)
        (r.1, r.2 + 1)
      else (.error (some e), 1)

/-- Model of `RetryManager.executeWithRetry(operation)`: outcome and
number of
invocations of the operation. -/
def executeWithRetry {α : Type} (cfg : RetryConfig) (cond : RetryCondition)
    (op : Nat → Except RequestError α) : Except (Option RequestError) α × Nat :=
  executeAttempts cfg cond op 1 cfg.maxRetries none

/-! ## Streaming translation loop of `POST /v1/messages` (`src/index.ts`)

The handler splits upstream chunks into lines; a line `data: <json>` is
parsed and handled, `data: [DONE]` closes the text block and the message,
anything else (including a `data:` line whose JSON fails to parse) is
ignored.  `SseLine` models one line after that framing step: `.chunk` is a
successfully parsed delta object, `.noise` a line that produces no
events. -/

/-- One entry of `choice.delta.tool_calls`: `index`, `id`,
`function?.name`, `function?.arguments`, each possibly absent. -/
structure ToolCallDelta where
  index : Option Nat
  id : Option String
  fname : Option String
  fargs : Option String
  deriving DecidableEq, Repr

/-- The shape of `parsed.choices[i]` as read by the handler. -/
structure DeltaChoice where
  content : Option String
  tool_calls : Option (List ToolCallDelta)
  finish_reason : Option String
  deriving DecidableEq, Repr

/-- A parsed upstream chunk. -/
structure StreamChunk where
  choices : List DeltaChoice
  deriving DecidableEq, Repr

/-- One upstream line after `data:` framing and JSON parsing. -/
inductive SseLine where
  | done : SseLine
  | chunk (c : StreamChunk) : SseLine
  | noise : SseLine
  deriving DecidableEq, Repr

/-- The downstream Claude-protocol events written by the handler (payload
fields not relevant to ordering/identity, such as the fresh uuid of
`message_start`, are omitted). -/
inductive SEvent where
  | messageStart : SEvent
  | contentBlockStartText (index : Nat) : SEvent
  | contentBlockDelta (index : Nat) (text : String) : SEvent
  | contentBlockStartTool (index : Nat) (id : String) (name : String) (input : Json) : SEvent
  | contentBlockStop (index : Nat) : SEvent
  | messageStop : SEvent

/-- One slot of `toolCallBuffer`. -/
structure ToolBufEntry where
  id : String
  name : String
  arguments : String
  deriving DecidableEq, Repr

/-- The mutable state of the streaming loop: `contentBuffer` and
`toolCallBuffer`.  The buffer is a JS object keyed by small integers;
`Object.entries` enumerates such keys in ascending numeric order, so it is
modelled as an association list kept sorted by index. -/
structure StreamState where
  contentBuffer : String
  toolCallBuffer : List (Nat × ToolBufEntry)

def bufGet (buf : List (Nat × ToolBufEntry)) (i : Nat) : Option ToolBufEntry :=
  (buf.find? (fun p => p.1 = i)).map (·.2)

/-- Insert/overwrite a slot, keeping indices in ascending order. -/
def bufSet : List (Nat × ToolBufEntry) → Nat → ToolBufEntry → List (Nat × ToolBufEntry)
  | [], i, e => [(i, e)]
  | (j, x) :: rest, i, e =>
    if i = j then (i, e) :: rest
    else if i < j then (i, e) :: (j, x) :: rest
    else (j, x) :: bufSet rest i e

/-- Accumulation of one `tool_calls` delta entry (`const index =
toolCall.index || 0`; `id`/`name` overwrite when present and non-empty,
argument fragments are appended to the slot's buffer). -/
def accumToolCall (buf : List (Nat × ToolBufEntry)) (tc : ToolCallDelta) :
    List (Nat × ToolBufEntry) :=
  let index := tc.index.getD 0
  let entry := (bufGet buf index).getD ⟨"", "", ""⟩
  let entry1 := match tc.id with
    | some i => if i = "" then entry else { entry with id := i }
    | none => entry
  let entry2 := match tc.fname with
    | some n => if n = "" then entry1 else { entry1 with name := n }
    | none => entry1
  let entry3 := match tc.fargs with
    | some a => if a = "" then entry2 else { entry2 with arguments := entry2.arguments ++ a }
    | none => entry2
  bufSet buf index entry3

/-- Events emitted for the accumulated tool calls on
`finish_reason === 'tool_calls'`: one `content_block_start`/`stop` pair per
slot with non-empty `id` and `name` (at index `slot + 1`); a slot whose
buffered arguments fail to parse is skipped (the `try`/`catch` around the
pair). -/
def toolFinishEvents (buf : List (Nat × ToolBufEntry)) : List SEvent :=
  (buf.map (fun p =>
    if p.2.id ≠ "" ∧ p.2.name ≠ "" then
      match (if p.2.arguments ≠ "" then jsonParse p.2.arguments else some (.obj [])) with
      | some input =>
        [SEvent.contentBlockStartTool (p.1 + 1) p.2.id p.2.name input,
         SEvent.contentBlockStop (p.1 + 1)]
      | none => []
    else [])).flatten

/-- Handling of `parsed.choices[0]`: text delta (skipped when falsy, i.e.
empty), tool-call accumulation, then the `finish_reason === 'tool_calls'`
emission, in source order. -/
def processChoice (st : StreamState) (ch : DeltaChoice) : StreamState × List SEvent :=
  let stEv1 : StreamState × List SEvent := match ch.content with
    | some s =>
      if s ≠ "" then
        ({ st with contentBuffer := st.contentBuffer ++ s }, [SEvent.contentBlockDelta 0 s])
      else (st, [])
    | none => (st, [])
  let st2 : StreamState := match ch.tool_calls with
    | some tcs => { stEv1.1 with toolCallBuffer := tcs.foldl accumToolCall stEv1.1.toolCallBuffer }
    | none => stEv1.1
  let ev3 : List SEvent :=
    if ch.finish_reason = some "tool_calls" then
      toolFinishEvents st2.toolCallBuffer ++ [SEvent.messageStop]
    else []
  (st2, stEv1.2 ++ ev3)

/-- Handling of one upstream line. -/
def processLine (st : StreamState) : SseLine → StreamState × List SEvent
  | .noise => (st, [])
  | .done => (st, [SEvent.contentBlockStop 0, SEvent.messageStop])
  | .chunk c =>
    match c.choices.head? with
    | none => (st, [])
    | some ch => processChoice st ch

/-- Events produced from a state by a list of upstream lines. -/
def runFrom (st : StreamState) : List SseLine → List SEvent
  | [] => []
  | l :: ls =>
    let r := processLine st l
    r.2 ++ runFrom r.1 ls

/-- The whole streaming translation: `message_start` and the index-0
`content_block_start` are written before the upstream loop begins. -/
def runStream (input : List SseLine) : List SEvent :=
  SEvent.messageStart :: SEvent.contentBlockStartText 0 :: runFrom ⟨"", []⟩ input

/-- A single-choice upstream text-delta chunk line. -/
def textLine (s : String) : SseLine :=
  .chunk ⟨[⟨some s, none, none⟩]⟩

/-! ## `ProtocolConverter` (the current snapshot, imported by `src/index.ts`)

Wire shapes of the two protocols.  Optional interface fields are `Option`;
the constant discriminators (`type: 'function'`, `type: 'tool_use'`, …) are
carried by the constructors. -/

/-- OpenAI-style message roles. -/
inductive ORole where
  | system : ORole
  | user : ORole
  | assistant : ORole
  | tool : ORole
  deriving DecidableEq, Repr

/-- Claude-style message roles. -/
inductive CRole where
  | user : CRole
  | assistant : CRole
  deriving DecidableEq, Repr

/-- The `OpenAIToolCall` interface (`type: 'function'` constant;
`fname`/`fargs` are
`function.name` / `function.arguments`). -/
structure OpenAIToolCall where
  id : String
  fname : String
  fargs : String
  deriving DecidableEq, Repr

/-- The `OpenAIMessage` interface. -/
structure OpenAIMessage where
  role : ORole
  content : Option String
  tool_calls : Option (List OpenAIToolCall)
  tool_call_id : Option String
  deriving DecidableEq, Repr

/-- The `OpenAITool` interface (`type: 'function'` constant; the nested
`function`
object's fields). -/
structure OpenAITool where
  fname : String
  fdescription : Option String
  fparameters : Option Json

/-- OpenAI-style `tool_choice`: `'none' | 'auto' | { type: 'function',
function: { name } }`. -/
inductive OToolChoice where
  | auto : OToolChoice
  | noneOpt : OToolChoice
  | function (name : String) : OToolChoice

/-- The `OpenAIRequest` interface. -/
structure OpenAIRequest where
  model : String
  messages : List OpenAIMessage
  temperature : Option ℚ
  max_tokens : Option Nat
  stream : Option Bool
  tools : Option (List OpenAITool)
  tool_choice : Option OToolChoice

/-- The `ClaudeContentBlock` interface, split by its `type` tag. -/
inductive ClaudeContentBlock where
  | text (text : Option String) : ClaudeContentBlock
  | tool_use (id : Option String) (name : Option String) (input : Option Json) : ClaudeContentBlock
  | tool_result (tool_use_id : Option String) (content : Option String)
      (is_error : Option Bool) : ClaudeContentBlock

/-- The `ClaudeMessage.content` field: a plain string or a block array. -/
inductive ClaudeContent where
  | str (s : String) : ClaudeContent
  | blocks (bs : List ClaudeContentBlock) : ClaudeContent

/-- The `ClaudeMessage` interface. -/
structure ClaudeMessage where
  role : CRole
  content : ClaudeContent

/-- The `ClaudeTool` interface. -/
structure ClaudeTool where
  name : String
  description : Option String
  input_schema : Option Json

/-- Claude-style `tool_choice.type`. -/
inductive CTCType where
  | auto : CTCType
  | any : CTCType
  | tool : CTCType
  deriving DecidableEq, Repr

/-- Claude-style `tool_choice`. -/
structure CToolChoice where
  ctype : CTCType
  name : Option String

/-- The `ClaudeRequest` interface. -/
structure ClaudeRequest where
  model : String
  max_tokens : Option Nat
  temperature : Option ℚ
  messages : List ClaudeMessage
  stream : Option Bool
  tools : Option (List ClaudeTool)
  tool_choice : Option CToolChoice

/-- The `choices[i].message` shape of an `OpenAIResponse`. -/
structure OpenAIResponseMessage where
  role : String
  content : Option String
  tool_calls : Option (List OpenAIToolCall)

/-- One `OpenAIResponse` choice. -/
structure OpenAIChoice where
  index : Nat
  message : OpenAIResponseMessage
  finish_reason : String

/-- The `OpenAIResponse` interface (the fields read by the converter). -/
structure OpenAIResponse where
  id : String
  object : String
  created : Nat
  model : String
  choices : List OpenAIChoice

/-- The `ClaudeResponse` interface (`rtype` is the interface's `type`
field). -/
structure ClaudeResponse where
  id : String
  rtype : String
  role : String
  content : List ClaudeContentBlock
  model : String
  stop_reason : Option String

/-! ### `claudeRequestToOpenAI` -/

/-- The special handling of plain string content for the Qwen API: a body
over 10000 characters containing `system-reminder` is replaced by a fixed
placeholder; otherwise bodies over 5000 characters are cut to their first
5000 characters plus a `...[truncated]` suffix. -/
def stringContentTransform (s : String) : String :=
  if strIncludes s "system-reminder" ∧ s.length > 10000 then
    "用户请求查看当前项目路径。"
  else if s.length > 5000 then s.take 5000 ++ "...[truncated]"
  else s

/-- The 1000-character cap applied to a tool result's content. -/
def truncateToolResult (s : String) : String :=
  if s.length > 1000 then s.take 1000 ++ "...[truncated]" else s

def toORole : CRole → ORole
  | .user => .user
  | .assistant => .assistant

/-- Accumulator of the block loop inside `claudeRequestToOpenAI`:
`textParts`, `toolCalls`, the `[Tool Result]:` user messages pushed
directly into the output, and the id-generator counter. -/
structure BlocksAcc where
  textParts : List String
  toolCalls : List OpenAIToolCall
  toolResultMsgs : List OpenAIMessage
  counter : Nat

/-- The `for (const block of message.content)` loop.  `genId k` models the
`k`-th value drawn from `generateToolCallId()` (which is random in the
source); the counter advances only when the source would call the
generator, i.e. when a `tool_use` block has no truthy id. -/
def convertBlocks (genId : Nat → String) : List ClaudeContentBlock → Nat → BlocksAcc
  | [], k => ⟨[], [], [], k⟩
  | b :: bs, k =>
    match b with
    | .text t =>
      let rest := convertBlocks genId bs k
      match t with
      | some s => if s ≠ "" then { rest with textParts := s :: rest.textParts } else rest
      | none => rest
    | .tool_use id name input =>
      let idk : String × Nat := match id with
        | some i => if i ≠ "" then (i, k) else (genId k, k + 1)
        | none => (genId k, k + 1)
      let tc : OpenAIToolCall :=
        ⟨idk.1, jsOrStr name "", Json.stringify (jsOrJson input (.obj []))⟩
      let rest := convertBlocks genId bs idk.2
      { rest with toolCalls := tc :: rest.toolCalls }
    | .tool_result _ content _ =>
      let rc := jsOrStr content ""
      let m : OpenAIMessage :=
        ⟨.user, some ("[Tool Result]: " ++ truncateToolResult rc), none, none⟩
      let rest := convertBlocks genId bs k
      { rest with toolResultMsgs := m :: rest.toolResultMsgs }

/-- Translation of one Claude message (role `user` or `assistant`) to the
OpenAI messages it contributes, with the id-generator counter threaded
through.  The combined text/tool-call message is appended only when it has
truthy content or a tool-call list (`if (openAIMessage.content ||
openAIMessage.tool_calls)`). -/
def claudeMessageToOpenAI (genId : Nat → String) (msg : ClaudeMessage) (k : Nat) :
    List OpenAIMessage × Nat :=
  match msg.content with
  | .str s =>
    let m : OpenAIMessage := ⟨toORole msg.role, some (stringContentTransform s), none, none⟩
    ((if jsTruthyStr m.content ∨ m.tool_calls.isSome then [m] else []), k)
  | .blocks bs =>
    let acc := convertBlocks genId bs k
    let content : Option String :=
      if acc.textParts ≠ [] then some (String.intercalate "\n" acc.textParts) else none
    let toolCalls : Option (List OpenAIToolCall) :=
      if acc.toolCalls ≠ [] then some acc.toolCalls else none
    let m : OpenAIMessage := ⟨toORole msg.role, content, toolCalls, none⟩
    (acc.toolResultMsgs ++ (if jsTruthyStr content ∨ toolCalls.isSome then [m] else []), acc.counter)

/-- The message loop of `claudeRequestToOpenAI` (Claude messages carry only
`user`/`assistant` roles, so every message is processed). -/
def claudeMessagesToOpenAI (genId : Nat → String) :
    List ClaudeMessage → Nat → List OpenAIMessage × Nat
  | [], k => ([], k)
  | m :: ms, k =>
    let r1 := claudeMessageToOpenAI genId m k
    let r2 := claudeMessagesToOpenAI genId ms r1.2
    (r1.1 ++ r2.1, r2.2)

/-- The target-model decision of `claudeRequestToOpenAI`: Qwen CLI forces
`qwen3-coder-plus`; with a non-empty mapping table the manager's result is
used unless it returned the input unchanged, in which case a truthy
`customModel` (`--model`) wins; otherwise `customModel` or the original
name. -/
def resolveTargetClaude (mgr : Option ModelMappingState) (useQwenCLI : Bool)
    (customModel : Option String) (model : String) : String :=
  if useQwenCLI then "qwen3-coder-plus"
  else
    match mgr with
    | some st =>
      if st.mappings ≠ [] then
        let target := mapModel st model customModel
        if target ≠ model then target else jsOrStr customModel model
      else jsOrStr customModel model
    | none => jsOrStr customModel model

def convertClaudeTool (t : ClaudeTool) : OpenAITool :=
  ⟨t.name, some (jsOrStr t.description ""), some (jsOrJson t.input_schema (.obj []))⟩

/-- Model of `ProtocolConverter.claudeRequestToOpenAI(claudeReq, useQwenCLI,
customModel)`. -/
def claudeRequestToOpenAI (mgr : Option ModelMappingState) (useQwenCLI : Bool)
    (customModel : Option String) (genId : Nat → String) (req : ClaudeRequest) :
    OpenAIRequest :=
  { model := resolveTargetClaude mgr useQwenCLI customModel req.model
    messages := (claudeMessagesToOpenAI genId req.messages 0).1
    max_tokens := some (jsOrNat req.max_tokens 4096)
    temperature := some (jsOrRat req.temperature (7/10))
    stream := some (jsOrBool req.stream false)
    tools := match req.tools with
      | some ts => if ts.length > 0 then some (ts.map convertClaudeTool) else none
      | none => none
    tool_choice := match req.tool_choice with
      | some tc =>
        match tc.ctype with
        | .auto => some .auto
        | .any => some .auto
        | .tool =>
          match tc.name with
          | some n => if n ≠ "" then some (.function n) else none
          | none => none
      | none => none }

/-! ### `openAIRequestToClaude` -/

/-- Failures `openAIRequestToClaude` can raise: the un-guarded
`JSON.parse(toolCall.function.arguments)`. -/
inductive ConvError where
  | jsonParseError (raw : String) : ConvError
  deriving DecidableEq, Repr

/-- A `tool_calls` entry of a request message: `JSON.parse` of the raw
arguments, with no `try`/`catch` — a parse failure propagates. -/
def convertOpenAIToolCall (tc : OpenAIToolCall) : Except ConvError ClaudeContentBlock :=
  match jsonParse tc.fargs with
  | some input => .ok (.tool_use (some tc.id) (some tc.fname) (some input))
  | none => .error (.jsonParseError tc.fargs)

/-- The `for (const toolCall of message.tool_calls)` loop: first parse
failure aborts. -/
def convertOpenAIToolCalls : List OpenAIToolCall → Except ConvError (List ClaudeContentBlock)
  | [] => .ok []
  | tc :: tcs => do
    let b ← convertOpenAIToolCall tc
    let rest ← convertOpenAIToolCalls tcs
    pure (b :: rest)

/-- Translation of a `user`/`assistant` OpenAI message: optional text
block, then the parsed tool calls; a lone non-empty text block collapses
back to plain string content. -/
def openAIChatMessageToClaude (role : CRole) (m : OpenAIMessage) :
    Except ConvError ClaudeMessage := do
  let textBlocks : List ClaudeContentBlock :=
    if jsTruthyStr m.content then [.text m.content] else []
  let toolBlocks ← match m.tool_calls with
    | some tcs =>
      if tcs.length > 0 then convertOpenAIToolCalls tcs
      else pure ([] : List ClaudeContentBlock)
    | none => pure ([] : List ClaudeContentBlock)
  let blocks := textBlocks ++ toolBlocks
  match blocks with
  | [ClaudeContentBlock.text (some t)] =>
    if t ≠ "" then pure ⟨role, .str t⟩ else pure ⟨role, .blocks blocks⟩
  | _ => pure ⟨role, .blocks blocks⟩

/-- Translation of one OpenAI message to a Claude message. -/
def openAIMessageToClaude (m : OpenAIMessage) : Except ConvError ClaudeMessage :=
  match m.role with
  | .system => .ok ⟨.user, .str ("System: " ++ jsOrStr m.content "")⟩
  | .tool =>
    .ok ⟨.user, .blocks
      [.tool_result (some (jsOrStr m.tool_call_id "")) (some (jsOrStr m.content "")) none]⟩
  | .user => openAIChatMessageToClaude .user m
  | .assistant => openAIChatMessageToClaude .assistant m

def openAIMessagesToClaude : List OpenAIMessage → Except ConvError (List ClaudeMessage)
  | [] => .ok []
  | m :: ms => do
    let c ← openAIMessageToClaude m
    let rest ← openAIMessagesToClaude ms
    pure (c :: rest)

/-- The built-in static model map of `ProtocolConverter.mapModel` plus its
`claude-3-sonnet-20240229` fallback. -/
def builtinModelMap (model : String) : String :=
  if model = "gpt-4" then "claude-3-opus-20240229"
  else if model = "gpt-4-turbo" then "claude-3-haiku-20240307"
  else if model = "gpt-3.5-turbo" then "claude-3-sonnet-20240229"
  else if model = "gpt-4o" then "claude-3-5-sonnet-20241022"
  else if model = "gpt-4o-mini" then "claude-3-haiku-20240307"
  else "claude-3-sonnet-20240229"

/-- Model of `ProtocolConverter.mapModel(openAIModel, useQwenCLI,
customModel)`. -/
def staticMapModel (mgr : Option ModelMappingState) (useQwenCLI : Bool)
    (customModel : Option String) (model : String) : String :=
  if useQwenCLI then "qwen3-coder-plus"
  else
    let tail : String := match customModel with
      | some c => if c ≠ "" then c else builtinModelMap model
      | none => builtinModelMap model
    match mgr with
    | some st =>
      if st.mappings ≠ [] then
        let t := mapModel st model customModel
        if t ≠ model then t else tail
      else tail
    | none => tail

/-- Model of `ProtocolConverter.openAIRequestToClaude(openAIReq, useQwenCLI,
customModel)`.  (The defensive `if (!tool.function)` throw cannot fire in
the typed shape, where every tool carries its `function` object.) -/
def openAIRequestToClaude (mgr : Option ModelMappingState) (useQwenCLI : Bool)
    (customModel : Option String) (req : OpenAIRequest) :
    Except ConvError ClaudeRequest := do
  let msgs ← openAIMessagesToClaude req.messages
  pure
    { model := staticMapModel mgr useQwenCLI customModel req.model
      max_tokens := some (jsOrNat req.max_tokens 4096)
      temperature := some (jsOrRat req.temperature (7/10))
      messages := msgs
      stream := some (jsOrBool req.stream false)
      tools := match req.tools with
        | some ts =>
          if ts.length > 0 then
            some (ts.map fun t =>
              ⟨t.fname, some (jsOrStr t.fdescription ""), some (jsOrJson t.fparameters (.obj []))⟩)
          else none
        | none => none
      tool_choice := match req.tool_choice with
        | some .auto => some ⟨.auto, none⟩
        | some .noneOpt => none
        | some (.function n) => some ⟨.tool, some n⟩
        | none => none }

/-! ### `openAIResponseToClaude` -/

/-- The structured marker substituted when a response tool call's
arguments fail to parse: the raw string is preserved. -/
def parseErrorMarker (raw : String) : Json :=
  .obj [("error", .str "Failed to parse arguments"), ("rawArguments", .str raw)]

/-- The default arguments substituted for a `Bash` tool call whose parsed
input is empty. -/
def bashDefaultInput : Json :=
  .obj [("command", .str "pwd"), ("description", .str "Get current directory")]

/-- One response `tool_calls` entry: `JSON.parse(arguments || '\x7b\x7d')`
inside `try`/`catch`; on failure the marker replaces the input, and an
empty/falsy parsed input for the `Bash` tool is replaced by the safe
default. -/
def responseToolUse (tc : OpenAIToolCall) : ClaudeContentBlock :=
  let parsedInput : Json := match jsonParse (if tc.fargs = "" then "\x7b\x7d" else tc.fargs) with
    | some j => j
    | none => parseErrorMarker tc.fargs
  let finalInput : Json :=
    if tc.fname = "Bash" ∧ (parsedInput.jsFalsy ∨ parsedInput.jsKeysLength = 0) then
      bashDefaultInput
    else parsedInput
  .tool_use (some tc.id) (some tc.fname) (some finalInput)

/-- Model of `ProtocolConverter.openAIResponseToClaude(openAIRes)`. -/
def openAIResponseToClaude (res : OpenAIResponse) : ClaudeResponse :=
  let choice := res.choices.head?
  let message := choice.map (·.message)
  let textBlocks : List ClaudeContentBlock := match message with
    | some m => if jsTruthyStr m.content then [.text m.content] else []
    | none => []
  let toolBlocks : List ClaudeContentBlock := match message with
    | some m =>
      match m.tool_calls with
      | some tcs => if tcs.length > 0 then tcs.map responseToolUse else []
      | none => []
    | none => []
  { id := res.id
    rtype := "message"
    role := "assistant"
    content := textBlocks ++ toolBlocks
    model := res.model
    stop_reason := choice.map (·.finish_reason) }

/-! ## Derived notions and concrete scenario inputs used by the theorems -/

/-- A fixed id generator standing in for the random
`generateToolCallId()` in closed statements. -/
def genIdModel : Nat → String := fun k => "call_gen" ++ toString k

/-- The standalone OpenAI message a `tool_result` block turns into (and
`none` for every other block kind). -/
def toolResultMsg : ClaudeContentBlock → Option OpenAIMessage
  | .tool_result _ content _ =>
    some ⟨.user, some ("[Tool Result]: " ++ truncateToolResult (jsOrStr content "")), none, none⟩
  | _ => none

def isToolResultBlock : ClaudeContentBlock → Bool
  | .tool_result _ _ _ => true
  | _ => false

/-- Scenario input for the tool-call streaming claim: the first fragment
carries index, id, name and the first argument piece. -/
def toolFragLine1 : SseLine :=
  .chunk ⟨[⟨none, some [⟨some 0, some "call_1", some "calc", some "\x7b\"a\":"⟩], none⟩]⟩

/-- Second argument fragment for the same tool-call index. -/
def toolFragLine2 : SseLine :=
  .chunk ⟨[⟨none, some [⟨some 0, none, none, some "15,\"b\""⟩], none⟩]⟩

/-- Third argument fragment for the same tool-call index. -/
def toolFragLine3 : SseLine :=
  .chunk ⟨[⟨none, some [⟨some 0, none, none, some ":27\x7d"⟩], none⟩]⟩

/-- The `finish_reason: "tool_calls"` chunk. -/
def finishToolCallsLine : SseLine :=
  .chunk ⟨[⟨none, none, some "tool_calls"⟩]⟩

/-- A Claude request carrying an explicit `max_tokens: 0` and
`temperature: 0`. -/
def reqExplicitZeros : ClaudeRequest :=
  ⟨"some-model", some 0, some 0, [⟨.user, .str "hi"⟩], none, none, none⟩

/-- A Claude request with non-zero numeric fields and `stream: true`. -/
def reqExplicitValues : ClaudeRequest :=
  ⟨"some-model", some 5, some (1/2), [⟨.user, .str "hi"⟩], some true, none, none⟩

/-- An OpenAI request with non-zero numeric fields and `stream: true`. -/
def oreqExplicitValues : OpenAIRequest :=
  ⟨"some-model", [], some (1/2), some 5, some true, none, none⟩

/-- A Claude request whose single message is a `tool_result` block. -/
def reqToolResult : ClaudeRequest :=
  ⟨"some-model", none, none,
    [⟨.user, .blocks [.tool_result (some "toolu_1") (some "ok") none]⟩], none, none, none⟩

/-- An OpenAI request whose assistant message carries a tool call with
non-JSON arguments. -/
def reqBadArgs : OpenAIRequest :=
  ⟨"some-model", [⟨.assistant, none, some [⟨"id1", "get_weather", "\x7b"⟩], none⟩],
    none, none, none, none, none⟩

/-- An OpenAI response whose tool call carries non-JSON arguments. -/
def resBadArgs : OpenAIResponse :=
  ⟨"resp_1", "chat.completion", 0, "some-model",
    [⟨0, ⟨"assistant", none, some [⟨"id1", "get_weather", "not json"⟩]⟩, "tool_calls"⟩]⟩

/-- The spec's running example table: one `contains` rule plus a config
default model. -/
def exampleTable : ModelMappingState :=
  ⟨[⟨"claude-3-5", "GLM-4", .contains⟩], some "claude-3-sonnet-20240229"⟩

/-- The example table with the config default cleared. -/
def exampleTableNoDefault : ModelMappingState :=
  ⟨[⟨"claude-3-5", "GLM-4", .contains⟩], none⟩

/-- An empty table that still carries a config `defaultModel`. -/
def emptyTableWithDefault : ModelMappingState :=
  ⟨[], some "claude-3-sonnet-20240229"⟩

/-- An empty table with no default at all. -/
def emptyTable : ModelMappingState := ⟨[], none⟩

/-- The error shape of an HTTP 503 upstream response. -/
def err503 : RequestError := ⟨some 503, none⟩

/-! ## Model-resolution theorems (claims C1 and C9) -/

theorem mapModelScan_of_find_some {ms : List ModelMapping} {name : String}
    {r : ModelMapping} (d : Option String) (ext : Option String)
    (h : findFirstMatch ms name = some r) :
    mapModelScan d name ext ms = r.target := by
  induction ms with
  | nil => simp [findFirstMatch] at h
  | cons m ms ih =>
    by_cases hm : ruleMatches m name
    · rw [findFirstMatch,
        List.find?_cons_of_pos (p := fun x => ruleMatches x name) _ hm,
        Option.some_inj] at h
      subst h
      simp [mapModelScan, hm]
    · rw [findFirstMatch,
        List.find?_cons_of_neg (p := fun x => ruleMatches x name) _ (by simpa using hm)] at h
      simp [mapModelScan, hm]
      exact ih h

theorem mapModelScan_of_find_none {ms : List ModelMapping} {name : String}
    (d : Option String) (ext : Option String)
    (h : findFirstMatch ms name = none) :
    mapModelScan d name ext ms = mapModelFallback d name ext := by
  induction ms with
  | nil => simp [mapModelScan]
  | cons m ms ih =>
    by_cases hm : ruleMatches m name
    · rw [findFirstMatch,
        List.find?_cons_of_pos (p := fun x => ruleMatches x name) _ hm] at h
      exact absurd h (by simp)
    · rw [findFirstMatch,
        List.find?_cons_of_neg (p := fun x => ruleMatches x name) _ (by simpa using hm)] at h
      simp [mapModelScan, hm]
      exact ih h

/-- Claim C1 (amended): with a NON-EMPTY rule list, `mapModel` follows the
priority chain: the first matching rule's target beats both defaults; with
no match, a non-empty config `defaultModel` beats the external default;
with neither, a non-empty external default is returned; with none of the
three, the requested name is returned unchanged.  (A default counts as
present when it is a non-empty string, matching JS truthiness; the
empty-rule-list case, where `mapModel` is pure passthrough, is excluded —
see the counterexample.) -/
theorem C1_priority_law (st : ModelMappingState) (name : String) (ext : Option String)
    (hne : st.mappings ≠ []) :
    (∀ r, findFirstMatch st.mappings name = some r → mapModel st name ext = r.target) ∧
    (findFirstMatch st.mappings name = none → ∀ d, st.defaultModel = some d → d ≠ "" →
      mapModel st name ext = d) ∧
    (findFirstMatch st.mappings name = none →
      (st.defaultModel = none ∨ st.defaultModel = some "") →
      ∀ e, ext = some e → e ≠ "" → mapModel st name ext = e) ∧
    (findFirstMatch st.mappings name = none →
      (st.defaultModel = none ∨ st.defaultModel = some "") →
      (ext = none ∨ ext = some "") → mapModel st name ext = name) := by
  rw [mapModel, if_neg hne]
  refine ⟨fun r h => mapModelScan_of_find_some _ _ h, fun h d hd hd' => ?_,
    fun h hdef e he he' => ?_, fun h hdef hext => ?_⟩
  · rw [mapModelScan_of_find_none _ _ h]
    simp [mapModelFallback, hd, hd']
  · rw [mapModelScan_of_find_none _ _ h]
    rcases hdef with h1 | h1 <;>
      simp [mapModelFallback, h1, jsOrStr, he, he']
  · rw [mapModelScan_of_find_none _ _ h]
    rcases hdef with h1 | h1 <;> rcases hext with h2 | h2 <;>
      simp [mapModelFallback, h1, jsOrStr, h2]

/-- Witness for C1: the spec's running example, exercising all four
priority levels. -/
theorem C1_priority_law_witness :
    mapModel exampleTable "claude-3-5-sonnet" (some "fallback-x") = "GLM-4" ∧
    mapModel exampleTable "unknown-model" (some "fallback-x") = "claude-3-sonnet-20240229" ∧
    mapModel exampleTableNoDefault "unknown-model" (some "fallback-x") = "fallback-x" ∧
    mapModel exampleTableNoDefault "no-default-at-all" none = "no-default-at-all" := by
  refine ⟨?_, ?_, ?_, ?_⟩
  · exact (C1_priority_law exampleTable "claude-3-5-sonnet" (some "fallback-x")
      (by decide)).1 ⟨"claude-3-5", "GLM-4", .contains⟩ (by decide)
  · exact (C1_priority_law exampleTable "unknown-model" (some "fallback-x")
      (by decide)).2.1 (by decide) "claude-3-sonnet-20240229" rfl (by decide)
  · exact (C1_priority_law exampleTableNoDefault "unknown-model" (some "fallback-x")
      (by decide)).2.2.1 (by decide) (Or.inl rfl) "fallback-x" rfl (by decide)
  · exact (C1_priority_law exampleTableNoDefault "no-default-at-all" none
      (by decide)).2.2.2 (by decide) (Or.inl rfl) (Or.inl rfl)

/-- Counterexample to C1 as stated: with an EMPTY rule list and a config
`defaultModel` present, no rule matches, yet `mapModel` returns the
requested name, not the `defaultModel` — the `mappings.length === 0` guard
returns before the default is consulted. -/
theorem C1_counterexample :
    mapModel emptyTableWithDefault "unknown-model" (some "fallback-x") = "unknown-model" ∧
    emptyTableWithDefault.defaultModel = some "claude-3-sonnet-20240229" ∧
    "unknown-model" ≠ "claude-3-sonnet-20240229" := by
  refine ⟨rfl, rfl, by decide⟩

/-- Claim C9 (amended): with an empty mapping table `mapModel` returns the
requested model name unchanged — it ignores the `externalDefault` (and the
config `defaultModel`) rather than falling through to steps 4/5. -/
theorem C9_empty_table_passthrough (st : ModelMappingState) (name : String)
    (ext : Option String) (h : st.mappings = []) :
    mapModel st name ext = name := by
  rw [mapModel, if_pos h]

/-- Witness for C9. -/
theorem C9_empty_table_passthrough_witness :
    mapModel emptyTable "claude-3-opus" (some "fallback-x") = "claude-3-opus" :=
  C9_empty_table_passthrough emptyTable "claude-3-opus" (some "fallback-x") rfl

/-- Counterexample to C9 as stated: with an empty table and an
`externalDefault` supplied, `mapModel` returns the requested name, not the
external default. -/
theorem C9_counterexample :
    mapModel emptyTable "claude-3-opus" (some "fallback-x") = "claude-3-opus" ∧
    "claude-3-opus" ≠ "fallback-x" :=
  ⟨rfl, by decide⟩

/-! ## Retry-policy theorems (claims C4 and C5) -/

/-- Claim C4: `shouldRetry` is `false` as soon as `attempt ≥ maxRetries`,
whatever the error and retry condition (including any custom predicate);
and for the exponential strategy with `initialDelay = 1000`,
`backoffFactor = 2`, `maxDelay = 30000` and jitter disabled,
`calculateDelay attempt` is `1000 * 2 ^ (attempt - 1)` clamped at `30000`,
for every `attempt ≥ 1` and whatever the random draw. -/
theorem C4_retry_law :
    (∀ (cfg : RetryConfig) (cond : RetryCondition) (e : RequestError) (attempt : Nat),
      cfg.maxRetries ≤ attempt → shouldRetry cfg cond e attempt = false) ∧
    (∀ (mr : Nat) (attempt : Nat) (rand : ℚ), 1 ≤ attempt →
      calculateDelay ⟨mr, 1000, 30000, 2, false⟩ .exponential attempt rand =
        min (1000 * 2 ^ (attempt - 1) : ℤ) 30000) := by
  constructor
  · intro cfg cond e attempt h
    rw [shouldRetry, if_pos h]
  · intro mr attempt rand _
    rw [calculateDelay]
    simp only []
    rw [if_neg (by simp)]
    push_cast
    rw [show ((1000 : ℚ) * 2 ^ (attempt - 1) ⊓ 30000) =
        (((1000 * 2 ^ (attempt - 1) ⊓ 30000 : ℤ)) : ℚ) from by push_cast ; rfl,
      Int.floor_intCast]

/-- Witness for C4: at `attempt = 3` with `maxRetries = 3` retry is denied
even for a retryable 503, and the third un-jittered exponential delay is
`min 4000 30000 = 4000`. -/
theorem C4_retry_law_witness :
    shouldRetry DEFAULT_RETRY_CONFIG DEFAULT_RETRY_CONDITION err503 3 = false ∧
    calculateDelay ⟨3, 1000, 30000, 2, false⟩ .exponential 3 (1/3) =
      min (1000 * 2 ^ (3 - 1) : ℤ) 30000 :=
  ⟨C4_retry_law.1 DEFAULT_RETRY_CONFIG DEFAULT_RETRY_CONDITION err503 3 (by decide),
   C4_retry_law.2 3 3 (1/3) (by decide)⟩

/-- Claim C5: an operation failing with HTTP 503 on every invocation,
under the default config (`maxRetries = 3`) and default retry condition,
is invoked exactly 3 times and the error finally propagated is that
503. -/
theorem C5_exhausted_retries {α : Type} (op : Nat → Except RequestError α)
    (h : ∀ n, op n = .error err503) :
    executeWithRetry DEFAULT_RETRY_CONFIG DEFAULT_RETRY_CONDITION op =
      (.error (some err503), 3) := by
  have s1 : shouldRetry DEFAULT_RETRY_CONFIG DEFAULT_RETRY_CONDITION err503 1 = true := rfl
  have s2 : shouldRetry DEFAULT_RETRY_CONFIG DEFAULT_RETRY_CONDITION err503 2 = true := rfl
  have s3 : shouldRetry DEFAULT_RETRY_CONFIG DEFAULT_RETRY_CONDITION err503 3 = false := rfl
  show executeAttempts DEFAULT_RETRY_CONFIG DEFAULT_RETRY_CONDITION op 1 3 none =
    (.error (some err503), 3)
  rw [executeAttempts, h 1]
  simp only [s1, if_true]
  rw [executeAttempts, h 2]
  simp only [s2, if_true]
  rw [executeAttempts, h 3]
  simp only [s3]
  simp

/-- Witness for C5: the constant-503 operation. -/
theorem C5_exhausted_retries_witness :
    executeWithRetry DEFAULT_RETRY_CONFIG DEFAULT_RETRY_CONDITION
      (fun _ => (.error err503 : Except RequestError Unit)) = (.error (some err503), 3) :=
  C5_exhausted_retries (fun _ => .error err503) (fun _ => rfl)

/-! ## Streaming theorems (claims C2 and C3) -/

theorem processLine_textLine (st : StreamState) (s : String) (h : s ≠ "") :
    processLine st (textLine s) =
      ({ st with contentBuffer := st.contentBuffer ++ s }, [SEvent.contentBlockDelta 0 s]) := by
  simp [processLine, textLine, processChoice, h]

theorem runFrom_text_deltas (deltas : List String) (st : StreamState)
    (h : ∀ d ∈ deltas, d ≠ "") :
    runFrom st (deltas.map textLine ++ [SseLine.done]) =
      deltas.map (SEvent.contentBlockDelta 0) ++ [SEvent.contentBlockStop 0, SEvent.messageStop] := by
  induction deltas generalizing st with
  | nil => simp [runFrom, processLine]
  | cons d ds ih =>
    have hd : d ≠ "" := h d (List.mem_cons_self d ds)
    have hds : ∀ x ∈ ds, x ≠ "" := fun x hx => h x (List.mem_cons_of_mem d hx)
    simp only [List.map_cons, List.cons_append, runFrom, processLine_textLine st d hd]
    rw [show ((List.map textLine ds).append [SseLine.done]) =
      List.map textLine ds ++ [SseLine.done] from rfl, ih _ hds]
    simp

/-- Claim C2 (amended): for an upstream sequence of NON-EMPTY text-delta
chunks followed by the `[DONE]` stop sentinel, the stream translator emits
exactly one `message_start`, one `content_block_start` for index 0, one
text-delta event per upstream delta in arrival order (so the concatenated
text equals the concatenation of the upstream deltas), then one
`content_block_stop` for index 0 and one `message_stop`.  `runStream` is a
pure function of the input sequence, so the count and ordering are the
same on every run.  (A delta carrying the empty string is skipped by the
`if (choice.delta?.content)` truthiness test and emits nothing — see the
counterexample.) -/
theorem C2_text_stream_law (deltas : List String) (h : ∀ d ∈ deltas, d ≠ "") :
    runStream (deltas.map textLine ++ [SseLine.done]) =
      SEvent.messageStart :: SEvent.contentBlockStartText 0 ::
        (deltas.map (SEvent.contentBlockDelta 0) ++
          [SEvent.contentBlockStop 0, SEvent.messageStop]) := by
  rw [runStream, runFrom_text_deltas deltas ⟨"", []⟩ h]

/-- Witness for C2: two deltas. -/
theorem C2_text_stream_law_witness :
    runStream [textLine "Hel", textLine "lo", SseLine.done] =
      [SEvent.messageStart, SEvent.contentBlockStartText 0,
       SEvent.contentBlockDelta 0 "Hel", SEvent.contentBlockDelta 0 "lo",
       SEvent.contentBlockStop 0, SEvent.messageStop] := by
  have := C2_text_stream_law ["Hel", "lo"] (by simp)
  simpa using this

/-- Counterexample to C2 as stated: a single upstream text-delta chunk
whose text is the empty string, followed by `[DONE]`.  The claim demands
exactly one text-delta event; the code emits none (the delta is falsy), so
the run contains only the framing events. -/
theorem C2_counterexample :
    runStream [textLine "", SseLine.done] =
      [SEvent.messageStart, SEvent.contentBlockStartText 0,
       SEvent.contentBlockStop 0, SEvent.messageStop] ∧
    (∀ (i : Nat) (t : String),
      SEvent.contentBlockDelta i t ∉ runStream [textLine "", SseLine.done]) := by
  constructor
  · rfl
  · intro i t hmem
    rw [show runStream [textLine "", SseLine.done] =
        [SEvent.messageStart, SEvent.contentBlockStartText 0,
         SEvent.contentBlockStop 0, SEvent.messageStop] from rfl] at hmem
    simp at hmem

/-- Claim C3: three argument fragments for the same tool-call index (id
and name delivered once, in the first fragment) are concatenated in
arrival order; on the `finish_reason: "tool_calls"` chunk exactly one
`tool_use` content block (one `content_block_start`/`content_block_stop`
pair, at index 1) is emitted for that call, whose input is the parsed
JSON object with `a = 15` and `b = 27`, followed by `message_stop`. -/
theorem C3_tool_call_streaming :
    runStream [toolFragLine1, toolFragLine2, toolFragLine3, finishToolCallsLine] =
      [SEvent.messageStart, SEvent.contentBlockStartText 0,
       SEvent.contentBlockStartTool 1 "call_1" "calc"
         (.obj [("a", .num 15), ("b", .num 27)]),
       SEvent.contentBlockStop 1, SEvent.messageStop] := by
  rfl

/-! ## Numeric-defaults theorems (claim C6) -/

/-- Claim C6 (amended): in both translation directions `maxTokens`
defaults to 4096 and `temperature` to 0.7 whenever the source field is
absent OR equal to 0 — an explicitly supplied `max_tokens: 0` or
`temperature: 0` IS overwritten by the default (`||` truthiness), contrary
to the original claim; `stream` defaults to `false` only when absent and an
explicit boolean is preserved (`false || false` is `false`). -/
theorem C6_numeric_defaults (mgr : Option ModelMappingState) (useQ : Bool)
    (cm : Option String) (genId : Nat → String) (creq : ClaudeRequest)
    (oreq : OpenAIRequest) :
    ((creq.max_tokens = none ∨ creq.max_tokens = some 0) →
      (claudeRequestToOpenAI mgr useQ cm genId creq).max_tokens = some 4096) ∧
    (∀ v, creq.max_tokens = some v → v ≠ 0 →
      (claudeRequestToOpenAI mgr useQ cm genId creq).max_tokens = some v) ∧
    ((creq.temperature = none ∨ creq.temperature = some 0) →
      (claudeRequestToOpenAI mgr useQ cm genId creq).temperature = some (7/10)) ∧
    (∀ q, creq.temperature = some q → q ≠ 0 →
      (claudeRequestToOpenAI mgr useQ cm genId creq).temperature = some q) ∧
    (creq.stream = none → (claudeRequestToOpenAI mgr useQ cm genId creq).stream = some false) ∧
    (∀ b, creq.stream = some b → (claudeRequestToOpenAI mgr useQ cm genId creq).stream = some b) ∧
    (∀ cres, openAIRequestToClaude mgr useQ cm oreq = .ok cres →
      (((oreq.max_tokens = none ∨ oreq.max_tokens = some 0) → cres.max_tokens = some 4096) ∧
        (∀ v, oreq.max_tokens = some v → v ≠ 0 → cres.max_tokens = some v) ∧
        ((oreq.temperature = none ∨ oreq.temperature = some 0) →
          cres.temperature = some (7/10)) ∧
        (∀ q, oreq.temperature = some q → q ≠ 0 → cres.temperature = some q) ∧
        (oreq.stream = none → cres.stream = some false) ∧
        (∀ b, oreq.stream = some b → cres.stream = some b))) := by
  refine ⟨?_, ?_, ?_, ?_, ?_, ?_, ?_⟩
  · rintro (h | h) <;> simp [claudeRequestToOpenAI, jsOrNat, h]
  · intro v h hv
    simp [claudeRequestToOpenAI, jsOrNat, h, hv]
  · rintro (h | h) <;> simp [claudeRequestToOpenAI, jsOrRat, h]
  · intro q h hq
    simp [claudeRequestToOpenAI, jsOrRat, h, hq]
  · intro h
    simp [claudeRequestToOpenAI, jsOrBool, h]
  · intro b h
    simp [claudeRequestToOpenAI, jsOrBool, h]
  · intro cres h
    cases hm : openAIMessagesToClaude oreq.messages with
    | error e => simp [openAIRequestToClaude, hm, Except.bind] at h
    | ok msgs =>
      simp only [openAIRequestToClaude, hm, Except.bind, Except.pure, Except.ok.injEq,
        bind, pure] at h
      subst h
      refine ⟨?_, ?_, ?_, ?_, ?_, ?_⟩
      · rintro (h | h) <;> simp [jsOrNat, h]
      · intro v h hv
        simp [jsOrNat, h, hv]
      · rintro (h | h) <;> simp [jsOrRat, h]
      · intro q h hq
        simp [jsOrRat, h, hq]
      · intro h
        simp [jsOrBool, h]
      · intro b h
        simp [jsOrBool, h]

/-- Witness for C6: explicit non-zero values survive, and `stream: true`
is preserved, in both directions. -/
theorem C6_numeric_defaults_witness :
    (claudeRequestToOpenAI none false none genIdModel reqExplicitValues).max_tokens = some 5 ∧
    (claudeRequestToOpenAI none false none genIdModel reqExplicitValues).temperature =
      some (1/2) ∧
    (claudeRequestToOpenAI none false none genIdModel reqExplicitValues).stream = some true ∧
    (claudeRequestToOpenAI none false none genIdModel reqExplicitZeros).max_tokens =
      some 4096 ∧
    (claudeRequestToOpenAI none false none genIdModel reqExplicitZeros).temperature =
      some (7/10) ∧
    (∀ cres, openAIRequestToClaude none false none oreqExplicitValues = .ok cres →
      cres.max_tokens = some 5) := by
  have hc := C6_numeric_defaults none false none genIdModel reqExplicitValues oreqExplicitValues
  have hz := C6_numeric_defaults none false none genIdModel reqExplicitZeros oreqExplicitValues
  refine ⟨hc.2.1 5 rfl (by decide), hc.2.2.2.1 (1/2) rfl (by norm_num),
    hc.2.2.2.2.2.1 true rfl, hz.1 (Or.inr rfl), hz.2.2.1 (Or.inr rfl), ?_⟩
  intro cres h
  exact ((hc.2.2.2.2.2.2 cres h).2.1) 5 rfl (by decide)

/-- Counterexample to C6 as stated: a request with explicit
`max_tokens: 0` and `temperature: 0` comes out with `max_tokens: 4096` and
`temperature: 0.7` — the explicit zeros are overwritten. -/
theorem C6_counterexample :
    (claudeRequestToOpenAI none false none genIdModel reqExplicitZeros).max_tokens =
      some 4096 ∧
    (claudeRequestToOpenAI none false none genIdModel reqExplicitZeros).temperature =
      some (7/10) ∧
    reqExplicitZeros.max_tokens = some 0 ∧
    reqExplicitZeros.temperature = some 0 ∧
    (4096 : ℕ) ≠ 0 ∧ (7/10 : ℚ) ≠ 0 := by
  refine ⟨rfl, rfl, rfl, rfl, by decide, by norm_num⟩

/-! ## Tool-result expansion theorems (claim C7) -/

theorem convertBlocks_toolResultMsgs (genId : Nat → String)
    (bs : List ClaudeContentBlock) (k : Nat) :
    (convertBlocks genId bs k).toolResultMsgs = bs.filterMap toolResultMsg := by
  induction bs generalizing k with
  | nil => simp [convertBlocks]
  | cons b bs ih =>
    cases b with
    | text t =>
      cases t with
      | none => simp [convertBlocks, toolResultMsg, ih]
      | some s =>
        by_cases hs : s = "" <;> simp [convertBlocks, toolResultMsg, hs, ih]
    | tool_use id name input => simp [convertBlocks, toolResultMsg, ih]
    | tool_result tid c ie => simp [convertBlocks, toolResultMsg, ih]

theorem convertBlocks_filter_toolResult (genId : Nat → String)
    (bs : List ClaudeContentBlock) (k : Nat) :
    convertBlocks genId (bs.filter (fun b => !isToolResultBlock b)) k =
      { convertBlocks genId bs k with toolResultMsgs := [] } := by
  induction bs generalizing k with
  | nil => simp [convertBlocks]
  | cons b bs ih =>
    cases b with
    | text t =>
      rw [show List.filter (fun b => !isToolResultBlock b) (ClaudeContentBlock.text t :: bs) =
        ClaudeContentBlock.text t :: List.filter (fun b => !isToolResultBlock b) bs from rfl]
      cases t with
      | none => simp [convertBlocks, ih]
      | some s =>
        by_cases hs : s = "" <;> simp [convertBlocks, hs, ih]
    | tool_use id name input =>
      rw [show List.filter (fun b => !isToolResultBlock b)
          (ClaudeContentBlock.tool_use id name input :: bs) =
        ClaudeContentBlock.tool_use id name input ::
          List.filter (fun b => !isToolResultBlock b) bs from rfl]
      simp [convertBlocks, ih]
    | tool_result tid c ie =>
      rw [show List.filter (fun b => !isToolResultBlock b)
          (ClaudeContentBlock.tool_result tid c ie :: bs) =
        List.filter (fun b => !isToolResultBlock b) bs from rfl]
      simp [convertBlocks, ih]

theorem mem_filterMap_toolResultMsg_role {m : OpenAIMessage}
    {bs : List ClaudeContentBlock} (h : m ∈ bs.filterMap toolResultMsg) :
    m.role = ORole.user := by
  obtain ⟨b, _, hb⟩ := List.mem_filterMap.mp h
  cases b with
  | text t => simp [toolResultMsg] at hb
  | tool_use id name input => simp [toolResultMsg] at hb
  | tool_result tid c ie =>
    simp only [toolResultMsg, Option.some_inj] at hb
    subst hb
    rfl

theorem eq_of_mem_ite_singleton {α : Type} {P : Prop} [Decidable P] {m w : α}
    (hm : m ∈ (if P then [w] else [])) : m = w := by
  split at hm
  · exact List.mem_singleton.mp hm
  · simp at hm

/-- Claim C7 (amended): a `tool_result` block inside a Claude message's
content array is emitted as its own standalone OpenAI-style message — but
with role `user` and text `[Tool Result]: <content>` (content capped at
1000 characters), NOT with role `tool`: the source comments that the Qwen
API rejects `tool`-role messages.  The output of translating the message
is exactly the standalone tool-result messages (in block order) followed
by the translation of the message with its `tool_result` blocks removed;
no emitted message ever carries role `tool`. -/
theorem C7_tool_result_expansion (genId : Nat → String) (k : Nat) (role : CRole)
    (bs : List ClaudeContentBlock) :
    ((claudeMessageToOpenAI genId ⟨role, .blocks bs⟩ k).1 =
      bs.filterMap toolResultMsg ++
        (claudeMessageToOpenAI genId
          ⟨role, .blocks (bs.filter (fun b => !isToolResultBlock b))⟩ k).1) ∧
    (∀ m ∈ (claudeMessageToOpenAI genId ⟨role, .blocks bs⟩ k).1, m.role ≠ ORole.tool) := by
  constructor
  · simp only [claudeMessageToOpenAI, convertBlocks_filter_toolResult,
      convertBlocks_toolResultMsgs]
    simp
  · intro m hm
    simp only [claudeMessageToOpenAI] at hm
    rw [List.mem_append] at hm
    rcases hm with hm | hm
    · rw [convertBlocks_toolResultMsgs] at hm
      rw [mem_filterMap_toolResultMsg_role hm]
      simp
    · have hw := eq_of_mem_ite_singleton hm
      subst hw
      cases role <;> simp [toORole]

/-- Witness for C7: a content array with one `tool_result` block expands
into the standalone user message, and that message's role is not
`tool`. -/
theorem C7_tool_result_expansion_witness :
    ((claudeMessageToOpenAI genIdModel
        ⟨.user, .blocks [ClaudeContentBlock.tool_result (some "toolu_1") (some "ok") none]⟩
        0).1 =
      [⟨ORole.user, some "[Tool Result]: ok", none, none⟩] ++
        (claudeMessageToOpenAI genIdModel ⟨.user, .blocks []⟩ 0).1) ∧
    (⟨ORole.user, some "[Tool Result]: ok", none, none⟩ : OpenAIMessage).role ≠ ORole.tool := by
  constructor
  · have h := (C7_tool_result_expansion genIdModel 0 .user
      [ClaudeContentBlock.tool_result (some "toolu_1") (some "ok") none]).1
    simpa [toolResultMsg, isToolResultBlock, truncateToolResult, jsOrStr] using h
  · exact (C7_tool_result_expansion genIdModel 0 .user
      [ClaudeContentBlock.tool_result (some "toolu_1") (some "ok") none]).2
      ⟨ORole.user, some "[Tool Result]: ok", none, none⟩
      (by rw [show (claudeMessageToOpenAI genIdModel
        ⟨.user, .blocks [ClaudeContentBlock.tool_result (some "toolu_1") (some "ok") none]⟩
        0).1 = [⟨ORole.user, some "[Tool Result]: ok", none, none⟩] from rfl]
          exact List.mem_singleton.mpr rfl)

/-- Counterexample to C7 as stated: the standalone message produced for a
`tool_result` block has role `user` (with a `[Tool Result]:` text
prefix), not role `tool`. -/
theorem C7_counterexample :
    (claudeRequestToOpenAI none false none genIdModel reqToolResult).messages =
      [⟨ORole.user, some "[Tool Result]: ok", none, none⟩] ∧
    ORole.user ≠ ORole.tool := by
  exact ⟨rfl, by simp⟩

/-! ## Parse-failure theorems (claim C8) -/

theorem convertOpenAIToolCalls_error {tcs : List OpenAIToolCall} {tc : OpenAIToolCall}
    (htc : tc ∈ tcs) (hp : jsonParse tc.fargs = none) :
    ∃ e, convertOpenAIToolCalls tcs = .error e := by
  induction tcs with
  | nil => simp at htc
  | cons t ts ih =>
    rcases List.mem_cons.mp htc with rfl | hmem
    · refine ⟨.jsonParseError tc.fargs, ?_⟩
      simp [convertOpenAIToolCalls, convertOpenAIToolCall, hp, Except.bind, bind, pure, Except.pure]
    · cases hc : convertOpenAIToolCall t with
      | error e =>
        exact ⟨e, by simp [convertOpenAIToolCalls, hc, Except.bind, bind, pure, Except.pure]⟩
      | ok b =>
        obtain ⟨e, he⟩ := ih hmem
        exact ⟨e, by simp [convertOpenAIToolCalls, hc, he, Except.bind, bind, pure, Except.pure]⟩

theorem openAIMessageToClaude_error {m : OpenAIMessage} {tcs : List OpenAIToolCall}
    {tc : OpenAIToolCall} (hrole : m.role = .user ∨ m.role = .assistant)
    (htcs : m.tool_calls = some tcs) (htc : tc ∈ tcs) (hp : jsonParse tc.fargs = none) :
    ∃ e, openAIMessageToClaude m = .error e := by
  obtain ⟨e, he⟩ := convertOpenAIToolCalls_error htc hp
  have hlen : tcs.length > 0 := List.length_pos.mpr (List.ne_nil_of_mem htc)
  refine ⟨e, ?_⟩
  rcases hrole with h | h <;>
    simp [openAIMessageToClaude, openAIChatMessageToClaude, h, htcs, hlen, he, Except.bind, bind, pure, Except.pure]

theorem openAIMessagesToClaude_error {msgs : List OpenAIMessage} {m : OpenAIMessage}
    {tcs : List OpenAIToolCall} {tc : OpenAIToolCall} (hm : m ∈ msgs)
    (hrole : m.role = .user ∨ m.role = .assistant) (htcs : m.tool_calls = some tcs)
    (htc : tc ∈ tcs) (hp : jsonParse tc.fargs = none) :
    ∃ e, openAIMessagesToClaude msgs = .error e := by
  induction msgs with
  | nil => simp at hm
  | cons m0 ms ih =>
    rcases List.mem_cons.mp hm with rfl | hmem
    · obtain ⟨e, he⟩ := openAIMessageToClaude_error hrole htcs htc hp
      exact ⟨e, by simp [openAIMessagesToClaude, he, Except.bind, bind, pure, Except.pure]⟩
    · cases h0 : openAIMessageToClaude m0 with
      | error e =>
        exact ⟨e, by simp [openAIMessagesToClaude, h0, Except.bind, bind, pure, Except.pure]⟩
      | ok c =>
        obtain ⟨e, he⟩ := ih hmem
        exact ⟨e, by simp [openAIMessagesToClaude, h0, he, Except.bind, bind, pure, Except.pure]⟩

/-- Claim C8 (amended): only the RESPONSE direction absorbs a tool-call
argument parse failure: `openAIResponseToClaude` always completes and
substitutes the structured marker with `error: "Failed to parse arguments"`
and `rawArguments: <raw string>` as the block's input, preserving the raw
arguments.  The REQUEST direction (`openAIRequestToClaude`) calls
`JSON.parse` without a `try`/`catch`, so a `tool_calls` entry with invalid
JSON arguments makes the whole translation raise, contrary to the original
claim. -/
theorem C8_parse_failure_handling :
    (∀ (res : OpenAIResponse) (ch : OpenAIChoice) (tcs : List OpenAIToolCall)
      (tc : OpenAIToolCall),
      res.choices.head? = some ch → ch.message.tool_calls = some tcs → tc ∈ tcs →
      jsonParse (if tc.fargs = "" then "\x7b\x7d" else tc.fargs) = none →
      ClaudeContentBlock.tool_use (some tc.id) (some tc.fname)
          (some (parseErrorMarker tc.fargs)) ∈ (openAIResponseToClaude res).content) ∧
    (∀ (mgr : Option ModelMappingState) (useQ : Bool) (cm : Option String)
      (req : OpenAIRequest) (m : OpenAIMessage) (tcs : List OpenAIToolCall)
      (tc : OpenAIToolCall),
      m ∈ req.messages → (m.role = .user ∨ m.role = .assistant) →
      m.tool_calls = some tcs → tc ∈ tcs → jsonParse tc.fargs = none →
      ∃ e, openAIRequestToClaude mgr useQ cm req = .error e) := by
  constructor
  · intro res ch tcs tc hch htcs htc hp
    have hlen : tcs.length > 0 := List.length_pos.mpr (List.ne_nil_of_mem htc)
    have hblock : responseToolUse tc =
        ClaudeContentBlock.tool_use (some tc.id) (some tc.fname)
          (some (parseErrorMarker tc.fargs)) := by
      simp [responseToolUse, hp, parseErrorMarker, Json.jsFalsy, Json.jsKeysLength]
    have htb : (openAIResponseToClaude res).content =
        (if jsTruthyStr ch.message.content then [ClaudeContentBlock.text ch.message.content]
          else []) ++ List.map responseToolUse tcs := by
      simp [openAIResponseToClaude, hch, htcs, hlen]
    rw [htb, ← hblock]
    exact List.mem_append_right _ (List.mem_map_of_mem responseToolUse htc)
  · intro mgr useQ cm req m tcs tc hm hrole htcs htc hp
    obtain ⟨e, he⟩ := openAIMessagesToClaude_error hm hrole htcs htc hp
    exact ⟨e, by simp [openAIRequestToClaude, he, Except.bind, bind, pure, Except.pure]⟩

/-- Witness for C8: the marker block for raw arguments `not json` appears
in the translated response, and the bad-arguments request translation
raises. -/
theorem C8_parse_failure_handling_witness :
    ClaudeContentBlock.tool_use (some "id1") (some "get_weather")
        (some (parseErrorMarker "not json")) ∈ (openAIResponseToClaude resBadArgs).content ∧
    (∃ e, openAIRequestToClaude none false none reqBadArgs = .error e) := by
  constructor
  · exact C8_parse_failure_handling.1 resBadArgs
      ⟨0, ⟨"assistant", none, some [⟨"id1", "get_weather", "not json"⟩]⟩, "tool_calls"⟩
      [⟨"id1", "get_weather", "not json"⟩] ⟨"id1", "get_weather", "not json"⟩
      rfl rfl (List.mem_singleton.mpr rfl) rfl
  · exact C8_parse_failure_handling.2 none false none reqBadArgs
      ⟨.assistant, none, some [⟨"id1", "get_weather", "\x7b"⟩], none⟩
      [⟨"id1", "get_weather", "\x7b"⟩] ⟨"id1", "get_weather", "\x7b"⟩
      (List.mem_singleton.mpr rfl) (Or.inr rfl) rfl (List.mem_singleton.mpr rfl) rfl

/-- Counterexample to C8 as stated: translating a request whose assistant
message carries a tool call with invalid-JSON arguments (a lone opening
brace) does not complete — it raises the parse error, rather than
producing a block with an error marker. -/
theorem C8_counterexample :
    openAIRequestToClaude none false none reqBadArgs =
      .error (.jsonParseError "\x7b") := rfl

/-! ## String-truncation theorems (claim C10) -/

theorem take_truncated_ne_empty (s : String) :
    s.take 5000 ++ "...[truncated]" ≠ "" := by
  intro h
  have h2 := congrArg String.length h
  rw [String.length_append] at h2
  rw [show ("...[truncated]" : String).length = 14 from rfl,
    show ("" : String).length = 0 from rfl] at h2
  omega

/-- Claim C10: for a `user`/`assistant` message whose content is a plain
string, `claudeRequestToOpenAI` forwards the text verbatim when it is
non-empty and at most 5000 characters; a string longer than 5000
characters (that does not hit the reminder rule) is replaced by its first
5000 characters plus `...[truncated]`; and a string longer than 10000
characters containing `system-reminder` is replaced wholesale by the fixed
placeholder sentence.  (An empty string yields a falsy content and the
message is dropped entirely, which also never forwards long text
verbatim.) -/
theorem C10_string_truncation (mgr : Option ModelMappingState) (useQ : Bool)
    (cm : Option String) (genId : Nat → String) (model : String) (role : CRole)
    (content : String) (mt : Option Nat) (tp : Option ℚ) (stm : Option Bool)
    (tools : Option (List ClaudeTool)) (tchoice : Option CToolChoice) :
    (strIncludes content "system-reminder" = true → content.length > 10000 →
      (claudeRequestToOpenAI mgr useQ cm genId
          ⟨model, mt, tp, [⟨role, .str content⟩], stm, tools, tchoice⟩).messages =
        [⟨toORole role, some "用户请求查看当前项目路径。", none, none⟩]) ∧
    (content.length > 5000 →
      ¬(strIncludes content "system-reminder" = true ∧ content.length > 10000) →
      (claudeRequestToOpenAI mgr useQ cm genId
          ⟨model, mt, tp, [⟨role, .str content⟩], stm, tools, tchoice⟩).messages =
        [⟨toORole role, some (content.take 5000 ++ "...[truncated]"), none, none⟩]) ∧
    (content ≠ "" → content.length ≤ 5000 →
      (claudeRequestToOpenAI mgr useQ cm genId
          ⟨model, mt, tp, [⟨role, .str content⟩], stm, tools, tchoice⟩).messages =
        [⟨toORole role, some content, none, none⟩]) := by
  refine ⟨fun h1 h2 => ?_, fun h1 h2 => ?_, fun h1 h2 => ?_⟩
  · have ht : stringContentTransform content = "用户请求查看当前项目路径。" := by
      simp [stringContentTransform, h1, h2]
    simp [claudeRequestToOpenAI, claudeMessagesToOpenAI, claudeMessageToOpenAI, ht,
      jsTruthyStr]
  · have ht : stringContentTransform content = content.take 5000 ++ "...[truncated]" := by
      rw [stringContentTransform, if_neg (by tauto), if_pos h1]
    have hne := take_truncated_ne_empty content
    simp [claudeRequestToOpenAI, claudeMessagesToOpenAI, claudeMessageToOpenAI, ht,
      jsTruthyStr, hne]
  · have ht : stringContentTransform content = content := by
      rw [stringContentTransform, if_neg (by omega), if_neg (by omega)]
    simp [claudeRequestToOpenAI, claudeMessagesToOpenAI, claudeMessageToOpenAI, ht,
      jsTruthyStr, h1]

/-- Witness for C10: a short non-empty string is forwarded verbatim. -/
theorem C10_string_truncation_witness :
    (claudeRequestToOpenAI none false none genIdModel
        ⟨"m", none, none, [⟨.user, .str "hello"⟩], none, none, none⟩).messages =
      [⟨ORole.user, some "hello", none, none⟩] :=
  (C10_string_truncation none false none genIdModel "m" .user "hello" none none none
    none none).2.2 (by decide) (by decide)

end OpenAi2CC
